import Mathlib

/-!
Shallow embedding of `tensorflow_tts/datasets/fastspeech_dataset.py`
(`CharactorDurationMelDataset`).

Modelling conventions:
* `find_files` (from `tensorflow_tts.utils`, which is not among the sources)
  and the surrounding `sorted(...)` calls (lines 51-53) are abstracted: the
  three already-sorted file lists are fields of `Config`, together with the
  loader functions and queries that `__init__` receives.
* `np.load`-style loaders are abstract functions `String → M`; the
  `.shape[0]` projection used for mel lengths is the abstract
  `shape0 : M → Nat`.
* `np.argsort(mel_lengths)` (line 68) is modelled by its contract: an index
  list `sortPerm`.  NumPy's default `kind='quicksort'` guarantees only that
  the result is a permutation of `range n` that gathers the lengths into
  non-decreasing order; it is NOT a stable sort, so the order of tied indices
  is unspecified.  Theorems take the permutation property as a hypothesis.
* `random.shuffle(groups)` (line 81) is likewise modelled by a permutation
  `groupPerm` of the group positions.
* Python exceptions — `IndexError` from list indexing, the two `assert`
  statements (lines 96-99), and the `UnboundLocalError` from reading
  `utt_ids` at line 105 when the guard at line 101 was false — become the
  `PyError` type of an `Except` computation; the `logging.warning` call
  (lines 59-61) becomes an explicit list of `(before, after)` count pairs
  returned next to the dataset.
* `itertools.groupby(idx_lengths, lambda a: a[1])` (line 78) is embedded as
  `groupRuns`, grouping maximal adjacent runs with equal second component.
* Python string operations (`str.replace`, `in`, `os.path.basename`) are
  embedded as executable functions over the character list of a `String`;
  `pyReplaceIds` carries a fuel argument bounded by the string length, which
  suffices because each step consumes at least one character.
* TensorFlow's
  `padded_batch(batch_size, padded_shapes=([None], [None], [None, None]))`
  (line 153) is modelled by its documented contract: each component of each
  element is padded with the default pad value 0 to the batch-wide maximum
  of every `None` dimension, and the `padded_shapes` structure must match
  the element structure produced by the generator.
-/

namespace FastSpeech

/-- Python errors surfaced by `__init__`: `IndexError` from list indexing,
the two `assert`s at lines 96-99, and the `UnboundLocalError` raised at
line 105 when line 101's guard was false and `utt_ids` was never bound. -/
inductive PyError where
  | indexError
  | assertNoData
  | assertCountMismatch (nMel nChar nDur : Nat)
  | unboundLocalError
  deriving DecidableEq

/-- Constructor arguments of `CharactorDurationMelDataset.__init__`, with the
file discovery (`sorted(find_files(root_dir, query))`, lines 51-53)
abstracted into the three already-sorted file lists. -/
structure Config (C D M : Type) where
  charactor_files : List String
  mel_files : List String
  duration_files : List String
  charactor_query : String
  charactor_load_fn : String → C
  mel_load_fn : String → M
  duration_load_fn : String → D
  shape0 : M → Nat
  mel_length_threshold : Option Nat
  return_utt_id : Bool

/-- The state stored on `self` at the end of `__init__` (lines 104-112). -/
structure Dataset (C D M : Type) where
  utt_ids : List String
  mel_files : List String
  charactor_files : List String
  duration_files : List String
  mel_load_fn : String → M
  charactor_load_fn : String → C
  duration_load_fn : String → D
  return_utt_id : Bool

/-- NumPy fancy indexing `np.array(xs)[idxs]` at the call sites where every
index is in range (the argsort and group-shuffle gathers, lines 71-74 and
90-93); out-of-range positions fall back to the default, which the in-range
hypotheses of the theorems make unreachable. -/
def gatherD (xs : List α) (d : α) (idxs : List Nat) : List α :=
  idxs.map (fun i => xs.getD i d)

/-- A Python list comprehension `[xs[i] for i in idxs]` (lines 62-65),
raising `IndexError` at the first out-of-range index. -/
def gatherE (xs : List α) : List Nat → Except PyError (List α)
  | [] => Except.ok []
  | i :: is =>
    match xs[i]? with
    | some x =>
      match gatherE xs is with
      | Except.ok ys => Except.ok (x :: ys)
      | Except.error e => Except.error e
    | none => Except.error PyError.indexError

/-- `itertools.groupby(idx_lengths, lambda a: a[1])` (line 78): splits a
list of `(index, length)` pairs into maximal adjacent runs of equal second
component. -/
def groupRuns : List (Nat × Nat) → List (List (Nat × Nat))
  | [] => []
  | [x] => [[x]]
  | x :: y :: rest =>
    match groupRuns (y :: rest) with
    | [] => [[x]]
    | g :: gs => if x.2 = y.2 then (x :: g) :: gs else [x] :: g :: gs

/-- The groups built at lines 77-78: pair each position of the length-sorted
array with its mel length, then split into runs of equal length. -/
def shuffleGroups (lengths : List Nat) (sortPerm : List Nat) :
    List (List (Nat × Nat)) :=
  let sortedLengths := gatherD lengths 0 sortPerm
  groupRuns ((List.range sortedLengths.length).zip sortedLengths)

/-- Lines 67-93: the bucket-shuffle, applied with the same index lists to
each of the per-sample arrays.  `lengths` is the filtered `mel_lengths`
array, `sortPerm` stands for the result of `np.argsort(mel_lengths)` and
`groupPerm` for the order `random.shuffle` gives the groups. -/
def bucketShuffle (lengths : List Nat) (sortPerm groupPerm : List Nat)
    (d : α) (arr : List α) : List α :=
  let sortedArr := gatherD arr d sortPerm
  let shuffled := gatherD (shuffleGroups lengths sortPerm) [] groupPerm
  let idxs := (shuffled.flatten).map Prod.fst
  gatherD sortedArr d idxs

/-- `mel_lengths = [mel_load_fn(f).shape[0] for f in mel_files]` (line 56). -/
def melLengths (cfg : Config C D M) : List Nat :=
  cfg.mel_files.map (fun f => cfg.shape0 (cfg.mel_load_fn f))

/-- `idxs = [idx for idx in range(len(mel_files)) if mel_lengths[idx] > mel_length_threshold]`
(line 58). -/
def retainedIdxs (cfg : Config C D M) (thr : Nat) : List Nat :=
  (List.range cfg.mel_files.length).filter
    (fun i => thr < (melLengths cfg).getD i 0)

/-- Lines 55-93: the optional threshold filter followed by the bucket
shuffle.  Returns the three (possibly filtered and re-ordered) file lists
and the `(before, after)` counts of any warning logged at lines 59-61. -/
def filterAndShuffle (cfg : Config C D M) (sortPerm groupPerm : List Nat) :
    Except PyError (List String × List String × List String × List (Nat × Nat)) :=
  match cfg.mel_length_threshold with
  | none => Except.ok (cfg.mel_files, cfg.charactor_files, cfg.duration_files, [])
  | some thr =>
    let idxs := retainedIdxs cfg thr
    let warns := if cfg.mel_files.length = idxs.length then []
                 else [(cfg.mel_files.length, idxs.length)]
    match gatherE cfg.mel_files idxs with
    | Except.error e => Except.error e
    | Except.ok mels =>
      match gatherE cfg.charactor_files idxs with
      | Except.error e => Except.error e
      | Except.ok chars =>
        match gatherE cfg.duration_files idxs with
        | Except.error e => Except.error e
        | Except.ok durs =>
          match gatherE (melLengths cfg) idxs with
          | Except.error e => Except.error e
          | Except.ok lens =>
            Except.ok (bucketShuffle lens sortPerm groupPerm "" mels,
                       bucketShuffle lens sortPerm groupPerm "" chars,
                       bucketShuffle lens sortPerm groupPerm "" durs,
                       warns)

/-- `os.path.basename`: the part of the path after the last separator. -/
def basename (f : String) : String :=
  ⟨f.data.foldl (fun acc c => if c = '/' then [] else acc ++ [c]) []⟩

/-- Python `s.replace(p :: ps, rep)` over character lists: replace every
(leftmost, non-overlapping) occurrence of the non-empty pattern.  The fuel
argument only bounds the recursion; `fuel = s.length + 1` always suffices
because every step consumes at least one character of `s`. -/
def replaceFromFuel (p : Char) (ps rep : List Char) : Nat → List Char → List Char
  | 0, s => s
  | _ + 1, [] => []
  | fuel + 1, c :: rest =>
    if (p :: ps).isPrefixOf (c :: rest) then
      rep ++ replaceFromFuel p ps rep fuel (rest.drop ps.length)
    else c :: replaceFromFuel p ps rep fuel rest

/-- `s.replace("-ids.npy", "")`: removes every occurrence of `"-ids.npy"`
(Python's `str.replace` replaces all occurrences, not only a suffix). -/
def pyReplaceIds (s : List Char) : List Char :=
  replaceFromFuel '-' "ids.npy".data [] (s.length + 1) s

/-- `os.path.basename(f).replace("-ids.npy", "")` (line 102). -/
def uttIdOf (f : String) : String :=
  ⟨pyReplaceIds (basename f).data⟩

/-- Python substring containment `pat in s` over character lists. -/
def containsSub (pat : List Char) : List Char → Bool
  | [] => pat.isPrefixOf []
  | c :: rest => if pat.isPrefixOf (c :: rest) then true else containsSub pat rest

/-- Python's `".npy" in charactor_query` (line 101). -/
def containsNpy (q : String) : Bool :=
  containsSub ".npy".data q.data

/-- `__init__` (lines 50-112): filter/shuffle, the `assert`s at lines 96-99,
the conditional `utt_ids` derivation (lines 101-102) whose guard failing
leaves `utt_ids` unbound at line 105, and the final field assignments. -/
def construct (cfg : Config C D M) (sortPerm groupPerm : List Nat) :
    Except PyError (Dataset C D M × List (Nat × Nat)) :=
  match filterAndShuffle cfg sortPerm groupPerm with
  | Except.error e => Except.error e
  | Except.ok (mels, chars, durs, warns) =>
    if mels.length = 0 then
      Except.error PyError.assertNoData
    else if ¬ (mels.length = chars.length ∧ chars.length = durs.length) then
      Except.error (PyError.assertCountMismatch mels.length chars.length durs.length)
    else if containsNpy cfg.charactor_query then
      Except.ok ({ utt_ids := chars.map uttIdOf,
                   mel_files := mels,
                   charactor_files := chars,
                   duration_files := durs,
                   mel_load_fn := cfg.mel_load_fn,
                   charactor_load_fn := cfg.charactor_load_fn,
                   duration_load_fn := cfg.duration_load_fn,
                   return_utt_id := cfg.return_utt_id }, warns)
    else
      Except.error PyError.unboundLocalError

/-- One element yielded by `generator` (lines 125-129). -/
inductive Item (C D M : Type) where
  | noId (charactor : C) (duration : D) (mel : M)
  | withId (utt_id : String) (charactor : C) (duration : D) (mel : M)
  deriving DecidableEq

/-- The utterance id carried by an item, when present. -/
def itemId : Item C D M → Option String
  | Item.withId u _ _ _ => some u
  | Item.noId _ _ _ => none

/-- `generator` (lines 117-129): note the truncation `utt_ids[:4]` at
line 118 while `self.mel_files[i]` etc. are indexed by the enumeration
position `i`.  The `utt_ids` argument is what the batching layer passes back
from `get_args` (lines 114-115), i.e. `self.utt_ids`. -/
def generator (ds : Dataset C D M) (utt_ids : List String) : List (Item C D M) :=
  ((utt_ids.take 4).enum).map (fun iu =>
    let i := iu.1
    let utt_id := iu.2
    let mel := ds.mel_load_fn (ds.mel_files.getD i "")
    let charactor := ds.charactor_load_fn (ds.charactor_files.getD i "")
    let duration := ds.duration_load_fn (ds.duration_files.getD i "")
    if ds.return_utt_id then Item.withId utt_id charactor duration mel
    else Item.noId charactor duration mel)

/-- `get_len_dataset` (lines 163-164). -/
def get_len_dataset (ds : Dataset C D M) : Nat :=
  ds.utt_ids.length

/-- TensorFlow dtypes appearing in `get_output_dtypes` (lines 157-161). -/
inductive TfDType where
  | string
  | int32
  | float32
  deriving DecidableEq

/-- `get_output_dtypes` (lines 157-161), as the flat component structure of
one generator element. -/
def get_output_dtypes (ds : Dataset C D M) : List TfDType :=
  if ds.return_utt_id then
    [TfDType.string, TfDType.int32, TfDType.int32, TfDType.float32]
  else
    [TfDType.int32, TfDType.int32, TfDType.float32]

/-- The number of components in `padded_shapes=([None], [None], [None, None])`
at line 153. -/
def padded_shapes_arity : Nat := 3

/-- The `tf.data` error raised when the `padded_shapes` structure passed to
`padded_batch` does not match the element structure of the dataset
(TensorFlow is external to the repository; this is its API contract). -/
inductive TfError where
  | paddedShapesMismatch
  deriving DecidableEq

/-- `create` (lines 131-155), reduced to the structural contract that
decides whether the pipeline can be iterated: `from_generator` produces
elements with the component structure of `get_output_dtypes`, and
`padded_batch` accepts them exactly when that structure has as many
components as `padded_shapes`.  Caching, shuffling and prefetching do not
change the element structure. -/
def create (ds : Dataset C D M) : Except TfError (List (Item C D M)) :=
  if (get_output_dtypes ds).length = padded_shapes_arity then
    Except.ok (generator ds ds.utt_ids)
  else
    Except.error TfError.paddedShapesMismatch

/-- Zero-padding of a 1-D integer array to length `n` (`padded_batch` with
a `[None]` padded shape and the default pad value 0). -/
def padTo (n : Nat) (xs : List Int) : List Int :=
  xs ++ List.replicate (n - xs.length) 0

/-- Zero-padding of a 2-D integer array to `t` rows and `f` columns
(`padded_batch` with a `[None, None]` padded shape and pad value 0). -/
def padMelTo (t f : Nat) (m : List (List Int)) : List (List Int) :=
  m.map (padTo f) ++ List.replicate (t - m.length) (List.replicate f 0)

/-- Maximum of `f` over a batch: the size `padded_batch` pads a `None`
dimension to. -/
def batchMax (f : α → Nat) (b : List α) : Nat :=
  (b.map f).foldr Nat.max 0

/-- The second dimension of a 2-D array stored as a list of rows. -/
def melWidth (m : List (List Int)) : Nat :=
  (m.headD []).length

/-- One application of
`padded_batch(batch_size, padded_shapes=([None], [None], [None, None]))`
(line 153) to a batch of `(charactor, duration, mel)` elements: every
`None` dimension is padded with 0 to the batch-wide maximum size of that
dimension. -/
def padded_batch (b : List (List Int × List Int × List (List Int))) :
    List (List Int × List Int × List (List Int)) :=
  let mc := batchMax (fun t => t.1.length) b
  let md := batchMax (fun t => t.2.1.length) b
  let mt := batchMax (fun t => t.2.2.length) b
  let mf := batchMax (fun t => melWidth t.2.2) b
  b.map (fun t => (padTo mc t.1, padTo md t.2.1, padMelTo mt mf t.2.2))

/-- Modelled from the spec: "Derive utterance id from each character-id
filename by stripping a known suffix" — the suffix-stripping reading of
line 102, to be compared with `uttIdOf` (the code's `str.replace` removes
every occurrence, not only a trailing suffix). -/
def stripIdsSuffixSpec (f : String) : String :=
  let b := (basename f).data
  let pat := "-ids.npy".data
  if pat.isSuffixOf b then ⟨b.take (b.length - pat.length)⟩ else ⟨b⟩

/-! Concrete instances used to evaluate the embedding on specific inputs. -/

/-- A dataset state with five aligned samples, as produced by a
five-sample construction without threshold. -/
def ds5 : Dataset String String String where
  utt_ids := ["u0", "u1", "u2", "u3", "u4"]
  mel_files := ["m0", "m1", "m2", "m3", "m4"]
  charactor_files := ["c0", "c1", "c2", "c3", "c4"]
  duration_files := ["d0", "d1", "d2", "d3", "d4"]
  mel_load_fn := fun f => f
  charactor_load_fn := fun f => f
  duration_load_fn := fun f => f
  return_utt_id := false

/-- Two samples with mel lengths 9 and 3, threshold 5: the second sample is
filtered out and a warning is logged. -/
def cfg3 : Config Unit Unit String where
  charactor_files := ["c0-ids.npy", "c1-ids.npy"]
  mel_files := ["m0.npy", "m1.npy"]
  duration_files := ["d0.npy", "d1.npy"]
  charactor_query := "*-ids.npy"
  charactor_load_fn := fun _ => ()
  mel_load_fn := fun f => f
  duration_load_fn := fun _ => ()
  shape0 := fun f => if f = "m0.npy" then 9 else 3
  mel_length_threshold := some 5
  return_utt_id := false

/-- The dataset state `construct cfg3 [0] [0]` produces. -/
def ds3 : Dataset Unit Unit String where
  utt_ids := ["c0"]
  mel_files := ["m0.npy"]
  charactor_files := ["c0-ids.npy"]
  duration_files := ["d0.npy"]
  mel_load_fn := cfg3.mel_load_fn
  charactor_load_fn := cfg3.charactor_load_fn
  duration_load_fn := cfg3.duration_load_fn
  return_utt_id := false

/-- No mel files but one charactor file: the counts differ, yet the
`assert len(mel_files) != 0` fires first. -/
def cfg4x : Config Unit Unit Unit where
  charactor_files := ["c0-ids.npy"]
  mel_files := []
  duration_files := []
  charactor_query := "*-ids.npy"
  charactor_load_fn := fun _ => ()
  mel_load_fn := fun _ => ()
  duration_load_fn := fun _ => ()
  shape0 := fun _ => 0
  mel_length_threshold := none
  return_utt_id := false

/-- One mel file and no charactor or duration files: the count-mismatch
assert fires. -/
def cfg4w : Config Unit Unit Unit where
  charactor_files := []
  mel_files := ["m0.npy"]
  duration_files := []
  charactor_query := "*-ids.npy"
  charactor_load_fn := fun _ => ()
  mel_load_fn := fun _ => ()
  duration_load_fn := fun _ => ()
  shape0 := fun _ => 0
  mel_length_threshold := none
  return_utt_id := false

/-- Two aligned samples, no threshold. -/
def cfg6 : Config Unit Unit Unit where
  charactor_files := ["c0-ids.npy", "c1-ids.npy"]
  mel_files := ["m0.npy", "m1.npy"]
  duration_files := ["d0.npy", "d1.npy"]
  charactor_query := "*-ids.npy"
  charactor_load_fn := fun _ => ()
  mel_load_fn := fun _ => ()
  duration_load_fn := fun _ => ()
  shape0 := fun _ => 0
  mel_length_threshold := none
  return_utt_id := false

/-- The dataset state `construct cfg6 [] []` produces. -/
def ds6 : Dataset Unit Unit Unit where
  utt_ids := ["c0", "c1"]
  mel_files := ["m0.npy", "m1.npy"]
  charactor_files := ["c0-ids.npy", "c1-ids.npy"]
  duration_files := ["d0.npy", "d1.npy"]
  mel_load_fn := cfg6.mel_load_fn
  charactor_load_fn := cfg6.charactor_load_fn
  duration_load_fn := cfg6.duration_load_fn
  return_utt_id := false

/-- One aligned sample with `return_utt_id=True`. -/
def cfg7 : Config Unit Unit Unit where
  charactor_files := ["c0-ids.npy"]
  mel_files := ["m0.npy"]
  duration_files := ["d0.npy"]
  charactor_query := "*-ids.npy"
  charactor_load_fn := fun _ => ()
  mel_load_fn := fun _ => ()
  duration_load_fn := fun _ => ()
  shape0 := fun _ => 0
  mel_length_threshold := none
  return_utt_id := true

/-- The dataset state `construct cfg7 [] []` produces. -/
def ds7 : Dataset Unit Unit Unit where
  utt_ids := ["c0"]
  mel_files := ["m0.npy"]
  charactor_files := ["c0-ids.npy"]
  duration_files := ["d0.npy"]
  mel_load_fn := cfg7.mel_load_fn
  charactor_load_fn := cfg7.charactor_load_fn
  duration_load_fn := cfg7.duration_load_fn
  return_utt_id := true

/-- A charactor filename that matches the `*-ids.npy` glob but contains
`-ids.npy` in its interior as well as at the end. -/
def cfg7x : Config Unit Unit Unit where
  charactor_files := ["a-ids.npyb-ids.npy"]
  mel_files := ["m0.npy"]
  duration_files := ["d0.npy"]
  charactor_query := "*-ids.npy"
  charactor_load_fn := fun _ => ()
  mel_load_fn := fun _ => ()
  duration_load_fn := fun _ => ()
  shape0 := fun _ => 0
  mel_length_threshold := none
  return_utt_id := true

/-- The dataset state `construct cfg7x [] []` produces. -/
def ds7x : Dataset Unit Unit Unit where
  utt_ids := ["ab"]
  mel_files := ["m0.npy"]
  charactor_files := ["a-ids.npyb-ids.npy"]
  duration_files := ["d0.npy"]
  mel_load_fn := cfg7x.mel_load_fn
  charactor_load_fn := cfg7x.charactor_load_fn
  duration_load_fn := cfg7x.duration_load_fn
  return_utt_id := true

/-- Well-formed, non-empty, aligned file lists whose charactor query does
not contain `".npy"`. -/
def cfg8 : Config Unit Unit Unit where
  charactor_files := ["c0-ids.txt"]
  mel_files := ["m0.npy"]
  duration_files := ["d0.npy"]
  charactor_query := "*-ids.txt"
  charactor_load_fn := fun _ => ()
  mel_load_fn := fun _ => ()
  duration_load_fn := fun _ => ()
  shape0 := fun _ => 0
  mel_length_threshold := none
  return_utt_id := false

/-- Two mel files (both above the threshold) but only one charactor file:
`charactor_files[1]` raises `IndexError` during filtering. -/
def cfg9w : Config Unit Unit String where
  charactor_files := ["c0-ids.npy"]
  mel_files := ["m0.npy", "m1.npy"]
  duration_files := ["d0.npy", "d1.npy"]
  charactor_query := "*-ids.npy"
  charactor_load_fn := fun _ => ()
  mel_load_fn := fun f => f
  duration_load_fn := fun _ => ()
  shape0 := fun _ => 10
  mel_length_threshold := some 5
  return_utt_id := false

/-- Two mel files of lengths 10 and 0, threshold 5, but only one charactor
and one duration file: the only retained index is 0, so filtering succeeds
and construction completes despite the original count mismatch. -/
def cfg9x : Config Unit Unit String where
  charactor_files := ["c0-ids.npy"]
  mel_files := ["m0.npy", "m1.npy"]
  duration_files := ["d0.npy"]
  charactor_query := "*-ids.npy"
  charactor_load_fn := fun _ => ()
  mel_load_fn := fun f => f
  duration_load_fn := fun _ => ()
  shape0 := fun f => if f = "m0.npy" then 10 else 0
  mel_length_threshold := some 5
  return_utt_id := false

/-- A batch of two `(charactor, duration, mel)` elements with character
lengths 3 and 1, duration lengths 2 and 3, mel time lengths 2 and 1, and a
common mel feature width of 2. -/
def batch5 : List (List Int × List Int × List (List Int)) :=
  [([1, 2, 3], [4, 5], [[7, 8], [9, 9]]), ([1], [2, 2, 2], [[5, 6]])]

end FastSpeech

namespace FastSpeech

/-! General lemmas about the gather, grouping and padding primitives. -/

theorem map_getD_range (l : List α) (d : α) :
    (List.range l.length).map (fun i => l.getD i d) = l := by
  apply List.ext_getElem
  · simp
  · intro n h1 h2
    simp only [List.getElem_map, List.getElem_range]
    exact List.getD_eq_getElem l d h2

theorem gatherD_length (xs : List α) (d : α) (idxs : List Nat) :
    (gatherD xs d idxs).length = idxs.length := by
  simp [gatherD]

theorem gatherD_perm {l : List α} {p : List Nat} (d : α)
    (h : p.Perm (List.range l.length)) : (gatherD l d p).Perm l := by
  have h2 := h.map (fun i => l.getD i d)
  rw [map_getD_range] at h2
  exact h2

theorem groupRuns_flatten (l : List (Nat × Nat)) : (groupRuns l).flatten = l := by
  induction l with
  | nil => rfl
  | cons x xs ih =>
    cases xs with
    | nil => rfl
    | cons y rest =>
      cases hg : groupRuns (y :: rest) with
      | nil => rw [hg] at ih; simp at ih
      | cons g gs =>
        rw [hg] at ih
        simp only [groupRuns, hg]
        by_cases hk : x.2 = y.2
        · rw [if_pos hk]
          simp only [List.flatten_cons] at ih ⊢
          rw [List.cons_append, ih]
        · rw [if_neg hk]
          simp only [List.flatten_cons] at ih ⊢
          simp [ih]

theorem groupRuns_head {x : Nat × Nat} {l : List (Nat × Nat)}
    {g : List (Nat × Nat)} {gs : List (List (Nat × Nat))}
    (h : groupRuns (x :: l) = g :: gs) : ∃ t, g = x :: t := by
  cases l with
  | nil =>
    rw [groupRuns] at h
    exact ⟨[], by injection h with h1 _; exact h1.symm⟩
  | cons y rest =>
    cases hg : groupRuns (y :: rest) with
    | nil =>
      simp only [groupRuns, hg] at h
      exact ⟨[], by injection h with h1 _; exact h1.symm⟩
    | cons g0 gs0 =>
      simp only [groupRuns, hg] at h
      by_cases hk : x.2 = y.2
      · rw [if_pos hk] at h
        exact ⟨g0, by injection h with h1 _; exact h1.symm⟩
      · rw [if_neg hk] at h
        exact ⟨[], by injection h with h1 _; exact h1.symm⟩

theorem groupRuns_key (l : List (Nat × Nat)) :
    ∀ g ∈ groupRuns l, ∀ a ∈ g, ∀ b ∈ g, a.2 = b.2 := by
  induction l with
  | nil => intro g hg; simp [groupRuns] at hg
  | cons x xs ih =>
    cases xs with
    | nil =>
      intro g hg a ha b hb
      simp only [groupRuns, List.mem_singleton] at hg
      subst hg
      simp only [List.mem_singleton] at ha hb
      rw [ha, hb]
    | cons y rest =>
      intro g hg a ha b hb
      cases hgr : groupRuns (y :: rest) with
      | nil =>
        simp only [groupRuns, hgr] at hg
        simp only [List.mem_singleton] at hg
        subst hg
        simp only [List.mem_singleton] at ha hb
        rw [ha, hb]
      | cons g0 gs0 =>
        simp only [groupRuns, hgr] at hg
        obtain ⟨t, ht⟩ := groupRuns_head hgr
        by_cases hk : x.2 = y.2
        · rw [if_pos hk] at hg
          rcases List.mem_cons.mp hg with h1 | h2
          · subst h1
            have hg0 : ∀ c ∈ g0, c.2 = y.2 := by
              intro c hc
              have hy : y ∈ g0 := by rw [ht]; exact List.mem_cons_self _ _
              exact ih g0 (by rw [hgr]; exact List.mem_cons_self _ _) c hc y hy
            have key : ∀ c ∈ x :: g0, c.2 = x.2 := by
              intro c hc
              rcases List.mem_cons.mp hc with h | h
              · rw [h]
              · rw [hg0 c h, hk]
            rw [key a ha, key b hb]
          · exact ih g (by rw [hgr]; exact List.mem_cons_of_mem _ h2) a ha b hb
        · rw [if_neg hk] at hg
          rcases List.mem_cons.mp hg with h1 | h2
          · subst h1
            simp only [List.mem_singleton] at ha hb
            rw [ha, hb]
          · exact ih g (by rw [hgr]; exact h2) a ha b hb

theorem mem_range_zip {m : Nat} {L : List Nat} {x : Nat × Nat}
    (hx : x ∈ (List.range m).zip L) :
    x.1 < m ∧ x.1 < L.length ∧ L.getD x.1 0 = x.2 := by
  rcases List.mem_iff_getElem.mp hx with ⟨i, hi, hig⟩
  have hi2 : i < m ∧ i < L.length := by
    simpa [List.length_zip, Nat.lt_min] using hi
  rw [List.getElem_zip] at hig
  have h1 : x.1 = i := by
    have := congrArg Prod.fst hig
    simpa [List.getElem_range] using this.symm
  have h2 : x.2 = L[i] := (congrArg Prod.snd hig).symm
  refine ⟨?_, ?_, ?_⟩
  · rw [h1]; exact hi2.1
  · rw [h1]; exact hi2.2
  · rw [h1, h2]; exact List.getD_eq_getElem L 0 hi2.2

end FastSpeech

namespace FastSpeech

theorem gatherE_ok_inv {xs : List α} {idxs : List Nat} {ys : List α} (d : α)
    (h : gatherE xs idxs = Except.ok ys) :
    (∀ i ∈ idxs, i < xs.length) ∧ ys = gatherD xs d idxs := by
  induction idxs generalizing ys with
  | nil =>
    simp only [gatherE, Except.ok.injEq] at h
    subst h
    exact ⟨by simp, rfl⟩
  | cons i is ih =>
    cases hxi : xs[i]? with
    | none => simp [gatherE, hxi] at h
    | some x =>
      cases hrec : gatherE xs is with
      | error e => simp [gatherE, hxi, hrec] at h
      | ok zs =>
        simp only [gatherE, hxi, hrec, Except.ok.injEq] at h
        obtain ⟨hlt, hx⟩ := List.getElem?_eq_some.mp hxi
        obtain ⟨h1, h2⟩ := ih hrec
        refine ⟨?_, ?_⟩
        · intro j hj
          rcases List.mem_cons.mp hj with hj1 | hj2
          · rw [hj1]; exact hlt
          · exact h1 j hj2
        · rw [← h, h2]
          simp only [gatherD, List.map_cons]
          congr 1
          rw [List.getD_eq_getElem xs d hlt]
          exact hx.symm

theorem gatherE_ok_of_lt {xs : List α} {idxs : List Nat} (d : α)
    (h : ∀ i ∈ idxs, i < xs.length) :
    gatherE xs idxs = Except.ok (gatherD xs d idxs) := by
  induction idxs with
  | nil => rfl
  | cons i is ih =>
    have hi : i < xs.length := h i (List.mem_cons_self _ _)
    have hx : xs[i]? = some xs[i] := List.getElem?_eq_getElem hi
    have hrec := ih (fun j hj => h j (List.mem_cons_of_mem _ hj))
    simp only [gatherE, hx, hrec, gatherD, List.map_cons, Except.ok.injEq]
    rw [List.getD_eq_getElem xs d hi]

theorem gatherE_error_of {xs : List α} {idxs : List Nat}
    (h : ∃ i ∈ idxs, xs.length ≤ i) :
    gatherE xs idxs = Except.error PyError.indexError := by
  induction idxs with
  | nil => simp at h
  | cons i is ih =>
    cases hxi : xs[i]? with
    | none => simp only [gatherE, hxi]
    | some x =>
      obtain ⟨hlt, _⟩ := List.getElem?_eq_some.mp hxi
      obtain ⟨j, hj, hjlen⟩ := h
      rcases List.mem_cons.mp hj with h1 | h2
      · subst h1; omega
      · simp only [gatherE, hxi, ih ⟨j, h2, hjlen⟩]

theorem le_batchMax (f : α → Nat) {b : List α} {t : α} (ht : t ∈ b) :
    f t ≤ batchMax f b := by
  induction b with
  | nil => simp at ht
  | cons x xs ih =>
    simp only [batchMax, List.map_cons, List.foldr_cons]
    rcases List.mem_cons.mp ht with h | h
    · rw [h]; exact Nat.le_max_left _ _
    · exact Nat.le_trans (ih h) (Nat.le_max_right _ _)

theorem batchMax_const {f : α → Nat} {b : List α} {F : Nat} (hb : b ≠ [])
    (h : ∀ t ∈ b, f t = F) : batchMax f b = F := by
  induction b with
  | nil => exact absurd rfl hb
  | cons x xs ih =>
    have hx : f x = F := h x (List.mem_cons_self _ _)
    simp only [batchMax, List.map_cons, List.foldr_cons]
    rcases eq_or_ne xs [] with hxs | hxs
    · subst hxs; simp [hx]
    · have hxs2 : batchMax f xs = F :=
        ih hxs (fun t ht => h t (List.mem_cons_of_mem _ ht))
      simp only [batchMax] at hxs2
      rw [hx, hxs2]
      exact Nat.max_self F

theorem bucketShuffle_mem {lengths : List Nat} {sp gp : List Nat} {d : α}
    {arr : List α} {x : α} (hx : x ∈ bucketShuffle lengths sp gp d arr) :
    x ∈ gatherD arr d sp := by
  simp only [bucketShuffle, gatherD] at hx
  rcases List.mem_map.mp hx with ⟨i, hi, hieq⟩
  rcases List.mem_map.mp hi with ⟨p, hp, hpeq⟩
  rcases List.mem_flatten.mp hp with ⟨g, hg, hpg⟩
  rcases List.mem_map.mp hg with ⟨j, _, hjeq⟩
  have hgmem : g ∈ shuffleGroups lengths sp := by
    by_cases hjl : j < (shuffleGroups lengths sp).length
    · rw [← hjeq, List.getD_eq_getElem _ _ hjl]
      exact List.getElem_mem hjl
    · exfalso
      rw [← hjeq, List.getD_eq_default _ _ (Nat.le_of_not_lt hjl)] at hpg
      simp at hpg
  have hpz : p ∈ (List.range (gatherD lengths 0 sp).length).zip
      (gatherD lengths 0 sp) := by
    have hfl := groupRuns_flatten
      ((List.range (gatherD lengths 0 sp).length).zip (gatherD lengths 0 sp))
    rw [← hfl]
    exact List.mem_flatten.mpr ⟨g, hgmem, hpg⟩
  obtain ⟨_, hp2, _⟩ := mem_range_zip hpz
  have hilt : i < (gatherD arr d sp).length := by
    rw [← hpeq, gatherD_length]
    rw [gatherD_length] at hp2
    exact hp2
  have : (gatherD arr d sp).getD i d = x := by
    simpa [gatherD] using hieq
  rw [← this, List.getD_eq_getElem _ _ hilt]
  exact List.getElem_mem hilt

end FastSpeech

namespace FastSpeech

theorem melLengths_length (cfg : Config C D M) :
    (melLengths cfg).length = cfg.mel_files.length := by
  simp [melLengths]

theorem retainedIdxs_lt {cfg : Config C D M} {thr i : Nat}
    (h : i ∈ retainedIdxs cfg thr) : i < cfg.mel_files.length := by
  simp only [retainedIdxs, List.mem_filter, List.mem_range] at h
  exact h.1

theorem retainedIdxs_gt {cfg : Config C D M} {thr i : Nat}
    (h : i ∈ retainedIdxs cfg thr) : thr < (melLengths cfg).getD i 0 := by
  simp only [retainedIdxs, List.mem_filter, List.mem_range,
    decide_eq_true_eq] at h
  exact h.2

theorem construct_ok_inv {cfg : Config C D M} {sp gp : List Nat}
    {ds : Dataset C D M} {ws : List (Nat × Nat)}
    (h : construct cfg sp gp = Except.ok (ds, ws)) :
    ∃ mels chars durs,
      filterAndShuffle cfg sp gp = Except.ok (mels, chars, durs, ws) ∧
      ds.mel_files = mels ∧ ds.charactor_files = chars ∧
      ds.duration_files = durs ∧ ds.utt_ids = chars.map uttIdOf ∧
      ds.return_utt_id = cfg.return_utt_id ∧
      mels.length ≠ 0 ∧ mels.length = chars.length ∧
      chars.length = durs.length ∧
      containsNpy cfg.charactor_query = true := by
  cases hfs : filterAndShuffle cfg sp gp with
  | error e => simp [construct, hfs] at h
  | ok quad =>
    obtain ⟨mels, chars, durs, warns⟩ := quad
    refine ⟨mels, chars, durs, ?_⟩
    simp only [construct, hfs] at h
    by_cases h0 : mels.length = 0
    · rw [if_pos h0] at h; simp at h
    · rw [if_neg h0] at h
      by_cases hcnt : mels.length = chars.length ∧ chars.length = durs.length
      · rw [if_neg (not_not_intro hcnt)] at h
        by_cases hnpy : containsNpy cfg.charactor_query = true
        · rw [if_pos hnpy] at h
          simp only [Except.ok.injEq, Prod.mk.injEq] at h
          obtain ⟨hds, hws⟩ := h
          subst hws
          subst hds
          exact ⟨rfl, rfl, rfl, rfl, rfl, rfl, h0, hcnt.1, hcnt.2, hnpy⟩
        · rw [if_neg hnpy] at h; simp at h
      · rw [if_pos hcnt] at h; simp at h

end FastSpeech

namespace FastSpeech

/-- C1: the generator does NOT yield one tuple per utterance id.  On the
five-sample dataset `ds5` a full pass yields only 4 tuples, because
line 118 slices the driving id list to `utt_ids[:4]`; for the indices it
does reach, the i-th tuple is built from the i-th charactor, duration and
mel files.  This evaluates the code at the failing input N = 5. -/
theorem generator_truncates_to_four :
    ds5.utt_ids.length = 5 ∧
    (generator ds5 ds5.utt_ids).length = 4 ∧
    generator ds5 ds5.utt_ids =
      [Item.noId "c0" "d0" "m0", Item.noId "c1" "d1" "m1",
       Item.noId "c2" "d2" "m2", Item.noId "c3" "d3" "m3"] :=
  ⟨rfl, rfl, rfl⟩

/-- C10: with `return_utt_id=True` the pipeline's element structure has 4
components (string id plus three arrays) while `padded_batch` is given only
3 padded shapes, so `create` fails with a structure mismatch; batches are
produced successfully exactly when `return_utt_id` is false. -/
theorem create_structure_mismatch (ds : Dataset C D M) :
    (create ds = Except.error TfError.paddedShapesMismatch ↔
      ds.return_utt_id = true) ∧
    ((∃ items, create ds = Except.ok items) ↔ ds.return_utt_id = false) ∧
    (ds.return_utt_id = true → (get_output_dtypes ds).length = 4) := by
  cases h : ds.return_utt_id <;>
    simp [create, get_output_dtypes, h, padded_shapes_arity]

/-- C4 counterexample: with no mel files but one charactor file the three
counts differ, yet construction fails with the no-data assertion — not with
the count-mismatch assertion the claim promises for every count
discrepancy. -/
theorem construct_noData_shadows_countMismatch :
    construct cfg4x [] [] = Except.error PyError.assertNoData ∧
    cfg4x.mel_files.length ≠ cfg4x.charactor_files.length :=
  ⟨rfl, by decide⟩

/-- C4 (amended): once the filter/shuffle step has returned file lists, the
no-data error is raised iff no mel files remain, and the count-mismatch
error naming the three counts iff at least one mel file remains and the
three counts differ — the no-data check precedes the count check. -/
theorem construct_assert_classification (cfg : Config C D M) (sp gp : List Nat)
    (mels chars durs : List String) (ws : List (Nat × Nat))
    (hfs : filterAndShuffle cfg sp gp = Except.ok (mels, chars, durs, ws)) :
    (construct cfg sp gp = Except.error PyError.assertNoData ↔ mels = []) ∧
    (∀ a b c,
      construct cfg sp gp = Except.error (PyError.assertCountMismatch a b c) ↔
      mels ≠ [] ∧ ¬(mels.length = chars.length ∧ chars.length = durs.length) ∧
      mels.length = a ∧ chars.length = b ∧ durs.length = c) := by
  simp only [construct, hfs]
  by_cases h0 : mels.length = 0
  · have hm : mels = [] := List.length_eq_zero.mp h0
    rw [if_pos h0]
    constructor
    · simp [hm]
    · intro a b c
      simp [hm]
  · have hm : mels ≠ [] := fun hc => h0 (by rw [hc]; rfl)
    rw [if_neg h0]
    by_cases hcnt : mels.length = chars.length ∧ chars.length = durs.length
    · rw [if_neg (not_not_intro hcnt)]
      constructor
      · constructor
        · intro hcontra
          by_cases hnpy : containsNpy cfg.charactor_query = true
          · rw [if_pos hnpy] at hcontra; simp at hcontra
          · rw [if_neg hnpy] at hcontra; simp at hcontra
        · intro hc; exact absurd hc hm
      · intro a b c
        constructor
        · intro hcontra
          by_cases hnpy : containsNpy cfg.charactor_query = true
          · rw [if_pos hnpy] at hcontra; simp at hcontra
          · rw [if_neg hnpy] at hcontra; simp at hcontra
        · rintro ⟨_, hbad, _⟩; exact absurd hcnt hbad
    · rw [if_pos hcnt]
      constructor
      · simp [hm]
      · intro a b c
        simp only [Except.error.injEq, PyError.assertCountMismatch.injEq]
        constructor
        · rintro ⟨ha, hb, hc⟩
          exact ⟨hm, hcnt, ha, hb, hc⟩
        · rintro ⟨_, _, ha, hb, hc⟩
          exact ⟨ha, hb, hc⟩

/-- C4 witness: on `cfg4w` (one mel file, empty charactor and duration
lists) the count-mismatch assertion fires, naming the counts 1, 0, 0. -/
theorem construct_assert_classification_witness :
    construct cfg4w [] [] = Except.error (PyError.assertCountMismatch 1 0 0) :=
  ((construct_assert_classification cfg4w [] [] ["m0.npy"] [] [] [] rfl).2
    1 0 0).mpr (by simp)

/-- C8: for any charactor query that does not contain ".npy", construction
fails with the unbound-local error for `utt_ids`, even when all three file
families are non-empty and have equal counts (no threshold given). -/
theorem construct_unbound_utt_ids (cfg : Config C D M) (sp gp : List Nat)
    (hq : containsNpy cfg.charactor_query = false)
    (hthr : cfg.mel_length_threshold = none)
    (hne : cfg.mel_files ≠ [])
    (hc : cfg.mel_files.length = cfg.charactor_files.length)
    (hd : cfg.charactor_files.length = cfg.duration_files.length) :
    construct cfg sp gp = Except.error PyError.unboundLocalError := by
  have hfs : filterAndShuffle cfg sp gp =
      Except.ok (cfg.mel_files, cfg.charactor_files, cfg.duration_files, []) := by
    simp [filterAndShuffle, hthr]
  simp only [construct, hfs]
  rw [if_neg (fun h => hne (List.length_eq_zero.mp h))]
  rw [if_neg (not_not_intro ⟨hc, hd⟩)]
  rw [if_neg (by simp [hq])]

/-- C8 witness: `cfg8` uses the query "*-ids.txt" with aligned non-empty
file lists, and construction fails with the unbound-local error. -/
theorem construct_unbound_utt_ids_witness :
    construct cfg8 [] [] = Except.error PyError.unboundLocalError :=
  construct_unbound_utt_ids cfg8 [] [] (by decide) rfl (by decide) rfl rfl

end FastSpeech

namespace FastSpeech

/-- C6: after any successful construction, `get_len_dataset` equals the
length of the utterance-id list and of all three stored file lists; and
for any aligned, non-empty, threshold-free input with ".npy" in the query,
construction succeeds and `get_len_dataset` equals the input count N. -/
theorem sample_count_spec (cfg : Config C D M) (sp gp : List Nat) :
    (∀ ds ws, construct cfg sp gp = Except.ok (ds, ws) →
      get_len_dataset ds = ds.utt_ids.length ∧
      ds.utt_ids.length = ds.charactor_files.length ∧
      ds.charactor_files.length = ds.mel_files.length ∧
      ds.mel_files.length = ds.duration_files.length) ∧
    (cfg.mel_length_threshold = none →
      containsNpy cfg.charactor_query = true →
      cfg.mel_files ≠ [] →
      cfg.charactor_files.length = cfg.mel_files.length →
      cfg.duration_files.length = cfg.mel_files.length →
      ∃ ds ws, construct cfg sp gp = Except.ok (ds, ws) ∧
        get_len_dataset ds = cfg.mel_files.length) := by
  constructor
  · intro ds ws h
    obtain ⟨mels, chars, durs, _, hm, hc, hd, hu, _, _, h1, h2, _⟩ :=
      construct_ok_inv h
    refine ⟨rfl, ?_, ?_, ?_⟩
    · rw [hu, hc]; simp
    · rw [hc, hm]; exact h1.symm
    · rw [hm, hd]; exact h1.trans h2
  · intro hthr hnpy hne hc hd
    have hfs : filterAndShuffle cfg sp gp =
        Except.ok (cfg.mel_files, cfg.charactor_files, cfg.duration_files, []) := by
      simp [filterAndShuffle, hthr]
    refine ⟨{ utt_ids := cfg.charactor_files.map uttIdOf,
              mel_files := cfg.mel_files,
              charactor_files := cfg.charactor_files,
              duration_files := cfg.duration_files,
              mel_load_fn := cfg.mel_load_fn,
              charactor_load_fn := cfg.charactor_load_fn,
              duration_load_fn := cfg.duration_load_fn,
              return_utt_id := cfg.return_utt_id }, [], ?_, ?_⟩
    · simp only [construct, hfs]
      rw [if_neg (fun h => hne (List.length_eq_zero.mp h))]
      rw [if_neg (not_not_intro ⟨hc.symm, hc.trans hd.symm⟩)]
      rw [if_pos hnpy]
    · simp [get_len_dataset, hc]

/-- C6 witness: on the two-sample `cfg6`, construction succeeds and the
sample count is 2, with all four stored lists of equal length. -/
theorem sample_count_spec_witness :
    (get_len_dataset ds6 = ds6.utt_ids.length ∧
     ds6.utt_ids.length = ds6.charactor_files.length ∧
     ds6.charactor_files.length = ds6.mel_files.length ∧
     ds6.mel_files.length = ds6.duration_files.length) ∧
    (∃ ds ws, construct cfg6 [] [] = Except.ok (ds, ws) ∧
      get_len_dataset ds = cfg6.mel_files.length) :=
  ⟨(sample_count_spec cfg6 [] []).1 ds6 [] rfl,
   (sample_count_spec cfg6 [] []).2 rfl (by decide) (by decide) rfl rfl⟩

/-- C9 (amended): with a threshold, construction fails with `IndexError`
during the filtering comprehensions — before the count-mismatch assertion
is ever reached — exactly in case some retained index falls outside the
charactor list (or, all charactor indexing succeeding, outside the duration
list).  In particular this happens whenever every mel length exceeds the
threshold and one of those lists is strictly shorter than the mel list; but
not when every retained index happens to be in range (see the
counterexample theorem). -/
theorem construct_filter_index_error (cfg : Config C D M) (sp gp : List Nat)
    (T : Nat) (hthr : cfg.mel_length_threshold = some T)
    (hbad : (∃ i ∈ retainedIdxs cfg T, cfg.charactor_files.length ≤ i) ∨
            ((∀ i ∈ retainedIdxs cfg T, i < cfg.charactor_files.length) ∧
             ∃ i ∈ retainedIdxs cfg T, cfg.duration_files.length ≤ i)) :
    construct cfg sp gp = Except.error PyError.indexError := by
  have hmelsg : gatherE cfg.mel_files (retainedIdxs cfg T) =
      Except.ok (gatherD cfg.mel_files "" (retainedIdxs cfg T)) :=
    gatherE_ok_of_lt "" (fun _ hi => retainedIdxs_lt hi)
  rcases hbad with hbc | ⟨hgood, hbd⟩
  · have hcg := gatherE_error_of hbc
    simp [construct, filterAndShuffle, hthr, hmelsg, hcg]
  · have hcg : gatherE cfg.charactor_files (retainedIdxs cfg T) =
        Except.ok (gatherD cfg.charactor_files "" (retainedIdxs cfg T)) :=
      gatherE_ok_of_lt "" hgood
    have hdg := gatherE_error_of hbd
    simp [construct, filterAndShuffle, hthr, hmelsg, hcg, hdg]

/-- C9 witness: `cfg9w` has two mel files above the threshold but only one
charactor file, so `charactor_files[1]` raises `IndexError`. -/
theorem construct_filter_index_error_witness :
    construct cfg9w [] [] = Except.error PyError.indexError :=
  construct_filter_index_error cfg9w [] [] 5 rfl (Or.inl (by decide))

/-- C9 counterexample: `cfg9x` has a charactor (and duration) list strictly
shorter than the mel list and a threshold, yet the only retained index is 0,
so filtering succeeds, the count assertion passes on the filtered lists, and
construction completes with no error at all — the claimed IndexError does
not occur. -/
theorem construct_short_charactor_no_error :
    cfg9x.charactor_files.length < cfg9x.mel_files.length ∧
    cfg9x.mel_length_threshold = some 5 ∧
    (construct cfg9x [0] [0]).toOption.map
      (fun p => (p.1.utt_ids, p.1.mel_files, p.1.charactor_files,
                 p.1.duration_files, p.2)) =
      some (["c0"], ["m0.npy"], ["c0-ids.npy"], ["d0.npy"], [(2, 1)]) :=
  ⟨by decide, rfl, rfl⟩

end FastSpeech

namespace FastSpeech

/-- C3: with `mel_length_threshold = T`, every mel file retained by a
successful construction has mel length strictly greater than `T`, and the
warning pair `(before, after)` is logged exactly when some sample was
dropped (`sortPerm` is argsort's output, a permutation of the retained
index range). -/
theorem threshold_filter_spec (cfg : Config C D M) (sp gp : List Nat) (T : Nat)
    (ds : Dataset C D M) (ws : List (Nat × Nat))
    (hthr : cfg.mel_length_threshold = some T)
    (hsp : sp.Perm (List.range (retainedIdxs cfg T).length))
    (hok : construct cfg sp gp = Except.ok (ds, ws)) :
    (∀ f ∈ ds.mel_files, T < cfg.shape0 (cfg.mel_load_fn f)) ∧
    ws = (if cfg.mel_files.length = (retainedIdxs cfg T).length then []
          else [(cfg.mel_files.length, (retainedIdxs cfg T).length)]) := by
  obtain ⟨mels, chars, durs, hfs, hm, _, _, _, _, _, _, _, _⟩ :=
    construct_ok_inv hok
  have hmelsg : gatherE cfg.mel_files (retainedIdxs cfg T) =
      Except.ok (gatherD cfg.mel_files "" (retainedIdxs cfg T)) :=
    gatherE_ok_of_lt "" (fun _ hi => retainedIdxs_lt hi)
  simp only [filterAndShuffle, hthr, hmelsg] at hfs
  cases hcg : gatherE cfg.charactor_files (retainedIdxs cfg T) with
  | error e => simp [hcg] at hfs
  | ok chars0 =>
    cases hdg : gatherE cfg.duration_files (retainedIdxs cfg T) with
    | error e => simp [hcg, hdg] at hfs
    | ok durs0 =>
      have hlg : gatherE (melLengths cfg) (retainedIdxs cfg T) =
          Except.ok (gatherD (melLengths cfg) 0 (retainedIdxs cfg T)) :=
        gatherE_ok_of_lt 0 (fun i hi => by
          rw [melLengths_length]; exact retainedIdxs_lt hi)
      simp only [hcg, hdg, hlg, Except.ok.injEq, Prod.mk.injEq] at hfs
      obtain ⟨hmels, _, _, hws⟩ := hfs
      constructor
      · intro f hf
        rw [hm, ← hmels] at hf
        have hf2 := bucketShuffle_mem hf
        have hperm : (gatherD (gatherD cfg.mel_files "" (retainedIdxs cfg T)) "" sp).Perm
            (gatherD cfg.mel_files "" (retainedIdxs cfg T)) :=
          gatherD_perm "" (by rw [gatherD_length]; exact hsp)
        have hf3 : f ∈ gatherD cfg.mel_files "" (retainedIdxs cfg T) :=
          hperm.mem_iff.mp hf2
        rcases List.mem_map.mp hf3 with ⟨i, hi, hieq⟩
        have hlt := retainedIdxs_lt hi
        have hgt := retainedIdxs_gt hi
        have hval : (melLengths cfg).getD i 0 =
            cfg.shape0 (cfg.mel_load_fn (cfg.mel_files.getD i "")) := by
          rw [List.getD_eq_getElem _ _ (by rw [melLengths_length]; exact hlt),
              List.getD_eq_getElem _ _ hlt]
          simp [melLengths]
        rw [hval] at hgt
        rw [← hieq]
        exact hgt
      · exact hws.symm

/-- C3 witness: on `cfg3` (mel lengths 9 and 3, threshold 5) construction
keeps only the first sample, whose mel length 9 exceeds 5, and logs the
warning pair (2, 1). -/
theorem threshold_filter_spec_witness :
    (cfg3.mel_length_threshold = some 5 ∧
     [0].Perm (List.range (retainedIdxs cfg3 5).length) ∧
     construct cfg3 [0] [0] = Except.ok (ds3, [(2, 1)])) ∧
    ((∀ f ∈ ds3.mel_files, 5 < cfg3.shape0 (cfg3.mel_load_fn f)) ∧
     [(2, 1)] = (if cfg3.mel_files.length = (retainedIdxs cfg3 5).length then []
                 else [(cfg3.mel_files.length, (retainedIdxs cfg3 5).length)])) :=
  ⟨⟨rfl, by decide, rfl⟩,
   threshold_filter_spec cfg3 [0] [0] 5 ds3 [(2, 1)] rfl (by decide) rfl⟩

/-- C7 (amended): when `return_utt_id` is set, the first component of each
yielded tuple is the corresponding charactor filename's basename with every
occurrence of "-ids.npy" removed (Python's `str.replace`); this coincides
with stripping the known suffix exactly when "-ids.npy" occurs in the
basename only as a suffix. -/
theorem generator_first_component (cfg : Config C D M) (sp gp : List Nat)
    (ds : Dataset C D M) (ws : List (Nat × Nat)) (dflt : Item C D M) (i : Nat)
    (hok : construct cfg sp gp = Except.ok (ds, ws))
    (hret : cfg.return_utt_id = true)
    (hi : i < (generator ds ds.utt_ids).length) :
    itemId ((generator ds ds.utt_ids).getD i dflt) =
      some (uttIdOf (ds.charactor_files.getD i "")) := by
  obtain ⟨mels, chars, durs, _, _, hc, _, hu, hr, _, _, _, _⟩ :=
    construct_ok_inv hok
  have hret2 : ds.return_utt_id = true := by rw [hr, hret]
  have hlen : (generator ds ds.utt_ids).length = min 4 ds.utt_ids.length := by
    simp [generator]
  have hiu : i < ds.utt_ids.length := by
    rw [hlen] at hi
    exact (lt_min_iff.mp hi).2
  have hulen : ds.utt_ids.length = chars.length := by rw [hu]; simp
  have hick : i < chars.length := hulen ▸ hiu
  rw [List.getD_eq_getElem _ _ hi]
  simp only [generator, List.getElem_map, List.getElem_enum, List.getElem_take,
    hret2, if_true, itemId]
  have hchar : ds.charactor_files.getD i "" = chars.get ⟨i, hick⟩ := by
    rw [hc]
    exact List.getD_eq_getElem chars "" hick
  rw [hchar]
  have hids : ds.utt_ids[i]? = some (uttIdOf (chars.get ⟨i, hick⟩)) := by
    rw [hu, List.getElem?_map, List.getElem?_eq_getElem hick]
    rfl
  rw [← List.getElem?_eq_getElem hiu, hids]

end FastSpeech

namespace FastSpeech

/-- C7 witness: on `cfg7` (one sample, `return_utt_id=True`), the first
tuple's first component is the utterance id derived from
"c0-ids.npy". -/
theorem generator_first_component_witness :
    itemId ((generator ds7 ds7.utt_ids).getD 0 (Item.noId () () ())) =
      some (uttIdOf (ds7.charactor_files.getD 0 "")) :=
  generator_first_component cfg7 [] [] ds7 [] (Item.noId () () ()) 0
    rfl rfl (by decide)

/-- C7 counterexample: the charactor filename "a-ids.npyb-ids.npy" matches
the `*-ids.npy` glob, and the code yields the utterance id "ab" (Python's
`replace` removes the interior occurrence of "-ids.npy" too), while the
claimed suffix-stripping would yield "a-ids.npyb". -/
theorem generator_first_component_not_suffix_strip :
    construct cfg7x [] [] = Except.ok (ds7x, []) ∧
    itemId ((generator ds7x ds7x.utt_ids).getD 0 (Item.noId () () ())) =
      some "ab" ∧
    stripIdsSuffixSpec (cfg7x.charactor_files.getD 0 "") = "a-ids.npyb" ∧
    ("ab" : String) ≠ "a-ids.npyb" :=
  ⟨rfl, rfl, by decide, by decide⟩

theorem padTo_length {xs : List Int} {n : Nat} (h : xs.length ≤ n) :
    (padTo n xs).length = n := by
  simp [padTo, Nat.add_sub_cancel' h]

theorem padTo_eq_self {xs : List Int} {n : Nat} (h : n ≤ xs.length) :
    padTo n xs = xs := by
  simp [padTo, Nat.sub_eq_zero_of_le h]

/-- C5: in every padded batch (with a common mel feature width F and
non-empty mels), the charactor and duration arrays are padded with 0 along
their single axis to the batch maximum length, and the mel array is padded
with zero rows only along the time axis to the batch's maximum time length,
each original row (the feature axis) left untouched. -/
theorem padded_batch_spec (b : List (List Int × List Int × List (List Int)))
    (F : Nat) (hb : b ≠ [])
    (hrect : ∀ t ∈ b, ∀ row ∈ t.2.2, row.length = F)
    (hne : ∀ t ∈ b, t.2.2 ≠ []) :
    padded_batch b = b.map (fun t =>
      (t.1 ++ List.replicate (batchMax (fun u => u.1.length) b - t.1.length)
         (0 : Int),
       t.2.1 ++ List.replicate (batchMax (fun u => u.2.1.length) b - t.2.1.length)
         (0 : Int),
       t.2.2 ++ List.replicate (batchMax (fun u => u.2.2.length) b - t.2.2.length)
         (List.replicate F (0 : Int)))) ∧
    (∀ t ∈ b,
      (padTo (batchMax (fun u => u.1.length) b) t.1).length =
        batchMax (fun u => u.1.length) b ∧
      (padTo (batchMax (fun u => u.2.1.length) b) t.2.1).length =
        batchMax (fun u => u.2.1.length) b ∧
      (padMelTo (batchMax (fun u => u.2.2.length) b) F t.2.2).length =
        batchMax (fun u => u.2.2.length) b) := by
  have hmf : batchMax (fun t => melWidth t.2.2) b = F := by
    apply batchMax_const hb
    intro t ht
    have hmel := hne t ht
    cases hm : t.2.2 with
    | nil => exact absurd hm hmel
    | cons r rs =>
      have : r ∈ t.2.2 := by rw [hm]; exact List.mem_cons_self _ _
      simp [melWidth, hm, hrect t ht r this]
  constructor
  · simp only [padded_batch]
    apply List.map_congr_left
    intro t ht
    rw [hmf]
    have hrows : t.2.2.map (padTo F) = t.2.2 :=
      (List.map_congr_left (fun row hrow =>
        padTo_eq_self (Nat.le_of_eq (hrect t ht row hrow).symm))).trans
        (List.map_id' t.2.2)
    simp [padTo, padMelTo, hrows]
  · intro t ht
    refine ⟨padTo_length (le_batchMax (fun u => u.1.length) ht),
            padTo_length (le_batchMax (fun u => u.2.1.length) ht), ?_⟩
    have hmt := le_batchMax (fun u => u.2.2.length) ht
    simp [padMelTo, Nat.add_sub_cancel' hmt]

/-- C5 witness: padding the concrete two-element batch `batch5` (character
lengths 3 and 1, duration lengths 2 and 3, mel times 2 and 1, feature
width 2). -/
theorem padded_batch_spec_witness :
    (batch5 ≠ [] ∧
     (∀ t ∈ batch5, ∀ row ∈ t.2.2, row.length = 2) ∧
     (∀ t ∈ batch5, t.2.2 ≠ [])) ∧
    (padded_batch batch5 = batch5.map (fun t =>
      (t.1 ++ List.replicate (batchMax (fun u => u.1.length) batch5 - t.1.length)
         (0 : Int),
       t.2.1 ++ List.replicate
         (batchMax (fun u => u.2.1.length) batch5 - t.2.1.length) (0 : Int),
       t.2.2 ++ List.replicate
         (batchMax (fun u => u.2.2.length) batch5 - t.2.2.length)
         (List.replicate 2 (0 : Int)))) ∧
    (∀ t ∈ batch5,
      (padTo (batchMax (fun u => u.1.length) batch5) t.1).length =
        batchMax (fun u => u.1.length) batch5 ∧
      (padTo (batchMax (fun u => u.2.1.length) batch5) t.2.1).length =
        batchMax (fun u => u.2.1.length) batch5 ∧
      (padMelTo (batchMax (fun u => u.2.2.length) batch5) 2 t.2.2).length =
        batchMax (fun u => u.2.2.length) batch5)) :=
  ⟨⟨by decide, by decide, by decide⟩,
   padded_batch_spec batch5 2 (by decide) (by decide) (by decide)⟩

end FastSpeech

namespace FastSpeech

theorem flatten_map_gatherD (L : List (List (Nat × Nat))) (xs : List α) (d : α) :
    (L.map (fun g => gatherD xs d (g.map Prod.fst))).flatten =
      gatherD xs d (L.flatten.map Prod.fst) := by
  induction L with
  | nil => rfl
  | cons g gs ih =>
    simp [gatherD, List.map_append, ih]

theorem gatherD_len_compat {α : Type} {samples : List α} {len : α → Nat}
    {sp : List Nat} (d : α) (hsub : ∀ j ∈ sp, j < samples.length)
    {i : Nat} (hi : i < sp.length) :
    len ((gatherD samples d sp).getD i d) =
      (gatherD (samples.map len) 0 sp).getD i 0 := by
  have hglen1 : i < (gatherD samples d sp).length := by
    rw [gatherD_length]; exact hi
  have hglen2 : i < (gatherD (samples.map len) 0 sp).length := by
    rw [gatherD_length]; exact hi
  rw [List.getD_eq_getElem _ _ hglen1, List.getD_eq_getElem _ _ hglen2]
  simp only [gatherD, List.getElem_map]
  have hj : sp[i] < samples.length := hsub sp[i] (List.getElem_mem hi)
  rw [List.getD_eq_getElem _ _ hj,
      List.getD_eq_getElem _ _ (by simpa [List.length_map] using hj)]
  simp [List.getElem_map]

theorem groupRuns_ne_nil (l : List (Nat × Nat)) : ∀ g ∈ groupRuns l, g ≠ [] := by
  induction l with
  | nil => intro g hg; simp [groupRuns] at hg
  | cons x xs ih =>
    cases xs with
    | nil =>
      intro g hg
      simp only [groupRuns, List.mem_singleton] at hg
      subst hg
      simp
    | cons y rest =>
      intro g hg
      cases hgr : groupRuns (y :: rest) with
      | nil =>
        simp only [groupRuns, hgr] at hg
        simp only [List.mem_singleton] at hg
        subst hg
        simp
      | cons g0 gs0 =>
        simp only [groupRuns, hgr] at hg
        by_cases hk : x.2 = y.2
        · rw [if_pos hk] at hg
          rcases List.mem_cons.mp hg with h1 | h2
          · subst h1; simp
          · exact ih g (by rw [hgr]; exact List.mem_cons_of_mem _ h2)
        · rw [if_neg hk] at hg
          rcases List.mem_cons.mp hg with h1 | h2
          · subst h1; simp
          · exact ih g (by rw [hgr]; exact h2)

theorem groupRuns_mem_key (l : List (Nat × Nat)) :
    ∀ g ∈ groupRuns l, ∀ p ∈ g, p.2 = (g.headD (0, 0)).2 := by
  intro g hg p hp
  cases g with
  | nil => simp at hp
  | cons a t =>
    rw [List.headD_cons]
    exact groupRuns_key l _ hg p hp a (List.mem_cons_self _ _)

theorem groupRuns_chain_keys (l : List (Nat × Nat))
    (hs : List.Chain' (fun p q : Nat × Nat => p.2 ≤ q.2) l) :
    List.Chain' (fun g1 g2 : List (Nat × Nat) =>
      (g1.headD (0, 0)).2 < (g2.headD (0, 0)).2) (groupRuns l) := by
  induction l with
  | nil => simp [groupRuns]
  | cons x xs ih =>
    cases xs with
    | nil => simp [groupRuns]
    | cons y rest =>
      have hxy : x.2 ≤ y.2 := (List.chain'_cons.mp hs).1
      have hrest := (List.chain'_cons.mp hs).2
      have ihr := ih hrest
      cases hgr : groupRuns (y :: rest) with
      | nil => simp [groupRuns, hgr]
      | cons g0 gs0 =>
        obtain ⟨t, ht⟩ := groupRuns_head hgr
        rw [hgr] at ihr
        simp only [groupRuns, hgr]
        by_cases hk : x.2 = y.2
        · rw [if_pos hk]
          rw [List.chain'_cons'] at ihr ⊢
          refine ⟨?_, ihr.2⟩
          intro b hb
          have hlt := ihr.1 b hb
          rw [ht] at hlt
          simp only [List.headD_cons] at hlt ⊢
          rw [hk]
          exact hlt
        · rw [if_neg hk]
          rw [List.chain'_cons]
          refine ⟨?_, ihr⟩
          rw [ht]
          simp only [List.headD_cons]
          exact lt_of_le_of_ne hxy hk

theorem groupRuns_pairwise_ne (l : List (Nat × Nat))
    (hs : List.Chain' (fun p q : Nat × Nat => p.2 ≤ q.2) l) :
    (groupRuns l).Pairwise (fun g1 g2 => ∀ p ∈ g1, ∀ q ∈ g2, p.2 ≠ q.2) := by
  have hchain := groupRuns_chain_keys l hs
  have hmapchain : List.Chain' (· < ·)
      ((groupRuns l).map (fun g => (g.headD (0, 0)).2)) :=
    (List.chain'_map _).mpr hchain
  have hmappw : List.Pairwise (· < ·)
      ((groupRuns l).map (fun g => (g.headD (0, 0)).2)) :=
    List.chain'_iff_pairwise.mp hmapchain
  have hpw : (groupRuns l).Pairwise
      (fun g1 g2 => (g1.headD (0, 0)).2 < (g2.headD (0, 0)).2) :=
    List.pairwise_map.mp hmappw
  refine hpw.imp_of_mem ?_
  intro g1 g2 hg1 hg2 hlt p hp q hq
  rw [groupRuns_mem_key l g1 hg1 p hp, groupRuns_mem_key l g2 hg2 q hq]
  exact Nat.ne_of_lt hlt

theorem chain_snd_zip_range {L : List Nat} (hs : List.Chain' (· ≤ ·) L) :
    List.Chain' (fun p q : Nat × Nat => p.2 ≤ q.2)
      ((List.range L.length).zip L) := by
  have hmap : ((List.range L.length).zip L).map Prod.snd = L :=
    List.map_snd_zip _ _ (by simp)
  rw [← hmap] at hs
  exact (List.chain'_map Prod.snd).mp hs

/-- C2 (amended): for any argsort output `sp` (its contract: a permutation
of the index range whose gathered lengths are non-decreasing; NumPy's
default `kind='quicksort'` is not stable, so the tie order is unspecified)
and any group shuffle `gp` (a permutation of the group positions,
`random.shuffle`'s contract), the bucket shuffle is a permutation of the
retained samples whose output is a concatenation of non-empty
length-homogeneous chunks with pairwise-distinct lengths — so each chunk is
the entire bucket of samples of its length — in some permuted group order.
Within a chunk the samples appear in the tie order chosen by the unstable
sort, which need not be their original relative order: see the
counterexample theorem. -/
theorem bucketShuffle_perm_and_groups {α : Type} (samples : List α)
    (len : α → Nat) (d : α) (sp gp : List Nat)
    (hsp : sp.Perm (List.range samples.length))
    (hsorted : List.Chain' (· ≤ ·) (gatherD (samples.map len) 0 sp))
    (hgp : gp.Perm (List.range (shuffleGroups (samples.map len) sp).length)) :
    (bucketShuffle (samples.map len) sp gp d samples).Perm samples ∧
    ∃ chunks : List (List α),
      chunks.flatten = bucketShuffle (samples.map len) sp gp d samples ∧
      (∀ c ∈ chunks, c ≠ []) ∧
      (∀ c ∈ chunks, ∀ x ∈ c, ∀ y ∈ c, len x = len y) ∧
      chunks.Pairwise (fun c1 c2 => ∀ x ∈ c1, ∀ y ∈ c2, len x ≠ len y) := by
  have hsub : ∀ j ∈ sp, j < samples.length := fun j hj =>
    List.mem_range.mp (hsp.mem_iff.mp hj)
  have hbs : bucketShuffle (samples.map len) sp gp d samples =
      gatherD (gatherD samples d sp) d
        (((gatherD (shuffleGroups (samples.map len) sp) [] gp).flatten).map
          Prod.fst) := rfl
  have hshperm : (gatherD (shuffleGroups (samples.map len) sp) [] gp).Perm
      (shuffleGroups (samples.map len) sp) := gatherD_perm [] hgp
  have hgflat : (shuffleGroups (samples.map len) sp).flatten =
      (List.range (gatherD (samples.map len) 0 sp).length).zip
        (gatherD (samples.map len) 0 sp) := by
    simp only [shuffleGroups]
    exact groupRuns_flatten _
  have hidxperm :
      (((gatherD (shuffleGroups (samples.map len) sp) [] gp).flatten).map
        Prod.fst).Perm (List.range (gatherD (samples.map len) 0 sp).length) := by
    have h1 := (hshperm.flatten).map Prod.fst
    rw [hgflat] at h1
    rwa [List.map_fst_zip _ _ (by simp)] at h1
  have hperm : (bucketShuffle (samples.map len) sp gp d samples).Perm samples := by
    rw [hbs]
    refine (gatherD_perm d ?_).trans (gatherD_perm d hsp)
    have h2 : (gatherD (samples.map len) 0 sp).length =
        (gatherD samples d sp).length := by
      rw [gatherD_length, gatherD_length]
    rw [← h2]
    exact hidxperm
  have hmemgroups : ∀ g ∈ gatherD (shuffleGroups (samples.map len) sp) [] gp,
      g ∈ shuffleGroups (samples.map len) sp := by
    intro g hg
    rcases List.mem_map.mp hg with ⟨j, hj, hjg⟩
    have hjl : j < (shuffleGroups (samples.map len) sp).length :=
      List.mem_range.mp (hgp.mem_iff.mp hj)
    rw [← hjg, List.getD_eq_getElem _ _ hjl]
    exact List.getElem_mem hjl
  have hgroups2 : ∀ g ∈ shuffleGroups (samples.map len) sp,
      g ∈ groupRuns ((List.range (gatherD (samples.map len) 0 sp).length).zip
        (gatherD (samples.map len) 0 sp)) := by
    intro g hg
    simpa only [shuffleGroups] using hg
  have hlenof : ∀ g ∈ shuffleGroups (samples.map len) sp,
      ∀ x ∈ gatherD (gatherD samples d sp) d (g.map Prod.fst),
      ∃ p ∈ g, len x = p.2 := by
    intro g hg x hx
    simp only [gatherD, List.map_map] at hx
    rcases List.mem_map.mp hx with ⟨p, hp, hpx⟩
    have hpz : p ∈ (List.range (gatherD (samples.map len) 0 sp).length).zip
        (gatherD (samples.map len) 0 sp) := by
      rw [← groupRuns_flatten
        ((List.range (gatherD (samples.map len) 0 sp).length).zip
          (gatherD (samples.map len) 0 sp))]
      exact List.mem_flatten.mpr ⟨g, hgroups2 g hg, hp⟩
    obtain ⟨_, hpb, hpv⟩ := mem_range_zip hpz
    have hpl : p.1 < sp.length := by rw [gatherD_length] at hpb; exact hpb
    refine ⟨p, hp, ?_⟩
    rw [← hpx]
    simp only [Function.comp]
    exact (gatherD_len_compat d hsub hpl).trans hpv
  refine ⟨hperm,
    (gatherD (shuffleGroups (samples.map len) sp) [] gp).map
      (fun g => gatherD (gatherD samples d sp) d (g.map Prod.fst)),
    ?_, ?_, ?_, ?_⟩
  · rw [hbs, flatten_map_gatherD]
  · intro c hc
    rcases List.mem_map.mp hc with ⟨g, hg, hgc⟩
    have hgne : g ≠ [] :=
      groupRuns_ne_nil _ g (hgroups2 g (hmemgroups g hg))
    rw [← hgc]
    simp only [gatherD, ne_eq, List.map_eq_nil_iff]
    exact hgne
  · intro c hc x hx y hy
    rcases List.mem_map.mp hc with ⟨g, hg, hgc⟩
    have hgmem := hmemgroups g hg
    rw [← hgc] at hx hy
    obtain ⟨p, hp, hxp⟩ := hlenof g hgmem x hx
    obtain ⟨q, hq, hyq⟩ := hlenof g hgmem y hy
    have hpq : p.2 = q.2 :=
      groupRuns_key _ g (hgroups2 g hgmem) p hp q hq
    rw [hxp, hyq, hpq]
  · have hzs : List.Chain' (fun p q : Nat × Nat => p.2 ≤ q.2)
        ((List.range (gatherD (samples.map len) 0 sp).length).zip
          (gatherD (samples.map len) 0 sp)) := chain_snd_zip_range hsorted
    have hpwruns := groupRuns_pairwise_ne _ hzs
    have hpwgroups : (shuffleGroups (samples.map len) sp).Pairwise
        (fun g1 g2 => ∀ p ∈ g1, ∀ q ∈ g2, p.2 ≠ q.2) := by
      simpa only [shuffleGroups] using hpwruns
    have hsymm : ∀ {g1 g2 : List (Nat × Nat)},
        (∀ p ∈ g1, ∀ q ∈ g2, p.2 ≠ q.2) → (∀ p ∈ g2, ∀ q ∈ g1, p.2 ≠ q.2) :=
      fun h p hp q hq => (h q hq p hp).symm
    have hpwshuffled :
        (gatherD (shuffleGroups (samples.map len) sp) [] gp).Pairwise
          (fun g1 g2 => ∀ p ∈ g1, ∀ q ∈ g2, p.2 ≠ q.2) :=
      (List.Perm.pairwise_iff hsymm hshperm).mpr hpwgroups
    rw [List.pairwise_map]
    refine hpwshuffled.imp_of_mem ?_
    intro g1 g2 hg1 hg2 hR x hx y hy
    obtain ⟨p, hp, hxp⟩ := hlenof g1 (hmemgroups g1 hg1) x hx
    obtain ⟨q, hq, hyq⟩ := hlenof g2 (hmemgroups g2 hg2) y hy
    rw [hxp, hyq]
    exact hR p hp q hq

/-- C2 witness: three samples of lengths 7, 5, 5 with the argsort output
[1, 2, 0] (gathered lengths [5, 5, 7], non-decreasing) and the group order
[1, 0]. -/
theorem bucketShuffle_perm_and_groups_witness :
    ([1, 2, 0].Perm (List.range ([7, 5, 5] : List Nat).length) ∧
     List.Chain' (· ≤ ·)
       (gatherD (([7, 5, 5] : List Nat).map (fun x => x)) 0 [1, 2, 0]) ∧
     [1, 0].Perm (List.range
       (shuffleGroups (([7, 5, 5] : List Nat).map (fun x => x))
         [1, 2, 0]).length)) ∧
    ((bucketShuffle (([7, 5, 5] : List Nat).map (fun x => x)) [1, 2, 0] [1, 0]
        0 [7, 5, 5]).Perm [7, 5, 5] ∧
     ∃ chunks : List (List Nat),
       chunks.flatten = bucketShuffle (([7, 5, 5] : List Nat).map (fun x => x))
         [1, 2, 0] [1, 0] 0 [7, 5, 5] ∧
       (∀ c ∈ chunks, c ≠ []) ∧
       (∀ c ∈ chunks, ∀ x ∈ c, ∀ y ∈ c,
         (fun x => x) x = (fun x => x) y) ∧
       chunks.Pairwise (fun c1 c2 => ∀ x ∈ c1, ∀ y ∈ c2,
         (fun x => x) x ≠ (fun x => x) y)) :=
  ⟨⟨by decide,
    by
      show List.Chain' (· ≤ ·) ([5, 5, 7] : List Nat)
      simp [List.chain'_cons],
    by decide⟩,
   bucketShuffle_perm_and_groups [7, 5, 5] (fun x => x) 0 [1, 2, 0] [1, 0]
     (by decide)
     (by
       show List.Chain' (· ≤ ·) ([5, 5, 7] : List Nat)
       simp [List.chain'_cons])
     (by decide)⟩

/-- C2 counterexample: on two samples of equal length 7, the argsort
contract (permutation of the index range, gathered lengths non-decreasing;
NumPy's default quicksort is not stable) admits the permutation [1, 0]; the
output then consists of the single length-7 group in order [20, 10],
reversing the original within-group order [10, 20] — so the claimed
preservation of original relative order within a group fails. -/
theorem bucketShuffle_not_within_group_stable :
    [1, 0].Perm (List.range ([10, 20] : List Nat).length) ∧
    List.Chain' (· ≤ ·)
      (gatherD (([10, 20] : List Nat).map (fun _ => 7)) 0 [1, 0]) ∧
    [0].Perm (List.range
      (shuffleGroups (([10, 20] : List Nat).map (fun _ => 7)) [1, 0]).length) ∧
    (shuffleGroups (([10, 20] : List Nat).map (fun _ => 7)) [1, 0]).length = 1 ∧
    bucketShuffle (([10, 20] : List Nat).map (fun _ => 7)) [1, 0] [0] 0
      [10, 20] = [20, 10] := by
  refine ⟨by decide, ?_, by decide, by decide, by decide⟩
  show List.Chain' (· ≤ ·) ([7, 7] : List Nat)
  simp [List.chain'_cons]

end FastSpeech

namespace FastSpeech

/-- C10 witness: the single-sample dataset `ds7` has `return_utt_id=True`,
and `create` fails on it with the padded-shapes structure mismatch. -/
theorem create_structure_mismatch_witness :
    (create ds7 = Except.error TfError.paddedShapesMismatch ↔
      ds7.return_utt_id = true) ∧
    ((∃ items, create ds7 = Except.ok items) ↔ ds7.return_utt_id = false) ∧
    (ds7.return_utt_id = true → (get_output_dtypes ds7).length = 4) :=
  create_structure_mismatch ds7

end FastSpeech
